import Mathlib

/-!
Verification of the organ-pages document-storage core.

This file is a shallow embedding, in Lean 4, of the Rust code in
`src/wasm/src/model/` (`file/document.rs`, `file/lib.rs`, `collection.rs`)
of the organ-pages repository, together with theorems settling the claims
about it.  The embedding conventions:

* The external CRDT engine (loro) is an out-of-scope collaborator.  Its
  containers are modelled by plain functional data: a `LoroMap` by an
  association list, a `LoroList` by a `List`, and a `LoroText` by a list
  of `(Char, attribute-map)` pairs.  Text deltas follow the documented
  retain/insert/delete semantics: a retain carrying attributes merges
  them into the retained range, a `null` attribute value removing the
  key; an insert attaches its attributes to the inserted characters.
* JSON values (`serde_json::Value`) are modelled by the `Json` inductive
  with integers for numbers (no claim exercises floating point).
* Handle-based in-place mutation becomes explicit state passing: every
  mutating operation returns the updated value.
* The IndexedDB persistence collaborator is modelled as always
  succeeding once its Rust-side preconditions (an id and a full store)
  hold; the precondition check itself is translated faithfully.
* `i64` is modelled by `Int` (no claim exercises 64-bit overflow).
-/

namespace Organ

/-- Model of `serde_json::Value` (numbers restricted to integers). -/
inductive Json where
  | null
  | bool (b : Bool)
  | num (n : Int)
  | str (s : String)
  | arr (xs : List Json)
  | obj (fs : List (String × Json))

/-- Structural equality test for `Json` values. -/
def Json.beq : Json → Json → Bool
  | .null, .null => true
  | .bool a, .bool b => a == b
  | .num a, .num b => a == b
  | .str a, .str b => a == b
  | .arr xs, .arr ys => goList xs ys
  | .obj xs, .obj ys => goFields xs ys
  | _, _ => false
where
  goList : List Json → List Json → Bool
    | [], [] => true
    | x :: xs, y :: ys => Json.beq x y && goList xs ys
    | _, _ => false
  goFields : List (String × Json) → List (String × Json) → Bool
    | [], [] => true
    | (k, x) :: xs, (l, y) :: ys => k == l && Json.beq x y && goFields xs ys
    | _, _ => false

/-- Association-list lookup, first match wins (model of map `get`). -/
def lookupAssoc {α : Type} : List (String × α) → String → Option α
  | [], _ => none
  | (k, v) :: rest, key => if k = key then some v else lookupAssoc rest key

/-- Association-list insert-or-replace (model of map `insert`). -/
def insertAssoc {α : Type} : List (String × α) → String → α → List (String × α)
  | [], key, value => [(key, value)]
  | (k, v) :: rest, key, value =>
      if k = key then (key, value) :: rest else (k, v) :: insertAssoc rest key value

/-- Association-list key removal. -/
def eraseAssoc {α : Type} : List (String × α) → String → List (String × α)
  | [], _ => []
  | (k, v) :: rest, key => if k = key then rest else (k, v) :: eraseAssoc rest key

/-- Model of `Value::get` on an object (`step.get("...")`). -/
def Json.get (j : Json) (key : String) : Option Json :=
  match j with
  | .obj fs => lookupAssoc fs key
  | _ => none

/-- Model of `Value::as_str`. -/
def Json.asStr : Json → Option String
  | .str s => some s
  | _ => none

/-- Model of `Value::as_u64` (numbers are integers in this model). -/
def Json.asU64 : Json → Option Nat
  | .num n => if 0 ≤ n then some n.toNat else none
  | _ => none

/-- Model of `Value::as_array`. -/
def Json.asArr : Json → Option (List Json)
  | .arr xs => some xs
  | _ => none

/-- Model of `Value::as_object`. -/
def Json.asObj : Json → Option (List (String × Json))
  | .obj fs => some fs
  | _ => none

/-! ### The text container and its delta semantics

A `LoroText` is a sequence of Unicode code points each carrying a
formatting-attribute map (`TextMeta` in the Rust code).  `len_unicode`
is the number of code points. -/

/-- A formatting-attribute map attached to text (model of `TextMeta`). -/
abbrev AttrMap := List (String × Json)

/-- A rich-text container: characters with their attribute maps. -/
abbrev RichText := List (Char × AttrMap)

/-- Attribute-map equality (key order sensitive; all maps built by the
bridge for a given run are built in the same order). -/
def attrsBeq : AttrMap → AttrMap → Bool
  | [], [] => true
  | (k, x) :: xs, (l, y) :: ys => k == l && Json.beq x y && attrsBeq xs ys
  | _, _ => false

/-- Merge delta attributes into a character's attributes: a `null`
value removes the key, any other value sets it.  Merging the empty
attribute map is the identity (a plain retain). -/
def mergeAttrs (base upd : AttrMap) : AttrMap :=
  upd.foldl
    (fun acc kv =>
      match kv with
      | (k, Json.null) => eraseAssoc acc k
      | (k, v) => insertAssoc acc k v)
    base

/-- One item of a text delta (model of `TextDelta` after
`TextDelta::from_text_diff`). -/
inductive TextDeltaItem where
  | retain (len : Nat) (attrs : AttrMap)
  | insert (s : List Char) (attrs : AttrMap)
  | delete (len : Nat)

/-- Model of `LoroText::apply_delta`: retains merge their attributes
over the retained range, inserts splice in attributed characters,
deletes drop characters. -/
def applyDeltaItems : List TextDeltaItem → RichText → RichText
  | [], t => t
  | .retain n attrs :: rest, t =>
      ((t.take n).map (fun ca => (ca.1, mergeAttrs ca.2 attrs)))
        ++ applyDeltaItems rest (t.drop n)
  | .insert s attrs :: rest, t =>
      (s.map (fun c => (c, attrs))) ++ applyDeltaItems rest t
  | .delete n :: rest, t => applyDeltaItems rest (t.drop n)

/-- Model of `LoroText::insert` (plain insert, no attributes; mark
expansion policy is descriptive metadata only, see
`configure_text_style`). -/
def textInsert (t : RichText) (pos : Nat) (s : List Char) : RichText :=
  t.take pos ++ s.map (fun c => (c, [])) ++ t.drop pos

/-- Model of `LoroText::delete`; an out-of-bounds delete is a loro
error which every caller in `document.rs` ignores, so it leaves the
text unchanged. -/
def textDelete (t : RichText) (pos len : Nat) : RichText :=
  if pos + len ≤ t.length then t.take pos ++ t.drop (pos + len) else t

/-- Model of `LoroText::to_delta`: the text as maximal insert runs of
characters sharing one attribute map. -/
def textRuns : RichText → List (List Char × AttrMap)
  | [] => []
  | (c, a) :: rest =>
      match textRuns rest with
      | [] => [([c], a)]
      | (s, a') :: rs =>
          if attrsBeq a a' then (c :: s, a) :: rs else ([c], a) :: (s, a') :: rs

/-- The characters of a string as an unformatted `RichText`. -/
def plainRuns (s : String) : RichText :=
  s.data.map (fun c => (c, []))

/-! ### The rich-text document tree

A rich-text document lives in the `LoroDoc`'s `"doc"` map: a
`nodeName` entry, an `attributes` map and a `children` list
(Loro-ProseMirror convention, `document.rs`).  A child is either a
structural node (a `LoroMap` with the same three keys), a text
container, or some other container kind.  `Option` records whether a
key is present with the expected container type; node-attribute
values are modelled as `Json` (string/bool/number values are the ones
the conversion keeps). -/

inductive Child where
  | node (nodeName : Option String) (attrs : Option (List (String × Json)))
      (children : Option (List Child))
  | text (t : RichText)
  | other

/-- The root `"doc"` map of a document. -/
structure PmDocRoot where
  nodeName : Option String
  attrs : Option (List (String × Json))
  children : Option (List Child)

/-- Model of `initialize_richtext_document`: root `"doc"` node with an
empty attributes map and one paragraph containing one empty text
container.  (`configure_text_style` only records the schema's mark
inclusivity in a separate `__meta` map, outside the `"doc"` subtree
modelled here.) -/
def initialize_richtext_document : PmDocRoot :=
  { nodeName := some "doc"
    attrs := some []
    children := some [Child.node (some "paragraph") (some []) (some [Child.text []])] }

/-- Where a text container sits: at root-child index `i`, or at index
`j` inside the children of the root child at index `i`. -/
inductive TextLoc where
  | root (i : Nat)
  | nested (i j : Nat)
deriving DecidableEq

/-- Read the text container at a location (the handle returned by
`find_text_at_position`). -/
def getTextAt (d : PmDocRoot) (loc : TextLoc) : Option RichText :=
  match d.children, loc with
  | some cs, .root i =>
      match cs.getD i Child.other with
      | .text t => some t
      | _ => none
  | some cs, .nested i j =>
      match cs.getD i Child.other with
      | .node _ _ (some ncs) =>
          match ncs.getD j Child.other with
          | .text t => some t
          | _ => none
      | _ => none
  | none, _ => none

/-- Replace the text container at a location (the effect of mutating
through the handle returned by `find_text_at_position`). -/
def setTextAt (d : PmDocRoot) (loc : TextLoc) (t : RichText) : PmDocRoot :=
  match d.children, loc with
  | some cs, .root i => { d with children := some (cs.set i (Child.text t)) }
  | some cs, .nested i j =>
      match cs.getD i Child.other with
      | .node nm a (some ncs) =>
          { d with children := some (cs.set i (Child.node nm a (some (ncs.set j (Child.text t))))) }
      | _ => d
  | none, _ => d

/-- Inner loop of `find_text_at_position` over one structural node's
children: returns `.inl (j, text_start, relative)` when the position
falls inside the text container at index `j` (range end-inclusive),
else `.inr` with the updated running position.  Non-text children
count as one position unit; there is no recursion into nested
structural nodes. -/
def findTextInner : List Child → Nat → Nat → Nat → (Nat × Nat × Nat) ⊕ Nat
  | [], _, _, cur => Sum.inr cur
  | c :: rest, j, position, cur =>
      match c with
      | .text t =>
          let len := t.length
          if position ≥ cur ∧ position ≤ cur + len then Sum.inl (j, cur, position - cur)
          else findTextInner rest (j + 1) position (cur + len)
      | _ => findTextInner rest (j + 1) position (cur + 1)

/-- Outer loop of `find_text_at_position` over the root's children.
A structural node with a children list is scanned by `findTextInner`
and then costs one boundary unit; one without a children list is
skipped entirely (the `continue` in the source); a root-level text
container is checked directly; any other container costs one unit. -/
def findTextOuter : List Child → Nat → Nat → Nat → Except String (TextLoc × Nat × Nat)
  | [], _, position, _ =>
      Except.error ("No text node found at position " ++ toString position)
  | c :: rest, i, position, cur =>
      match c with
      | .node _ _ (some ncs) =>
          match findTextInner ncs 0 position cur with
          | Sum.inl (j, start, rel) => Except.ok (TextLoc.nested i j, start, rel)
          | Sum.inr cur' => findTextOuter rest (i + 1) position (cur' + 1)
      | .node _ _ none => findTextOuter rest (i + 1) position cur
      | .text t =>
          let len := t.length
          if position ≥ cur ∧ position ≤ cur + len then
            Except.ok (TextLoc.root i, cur, position - cur)
          else findTextOuter rest (i + 1) position (cur + len)
      | .other => findTextOuter rest (i + 1) position (cur + 1)

/-- Model of `find_text_at_position`. -/
def find_text_at_position (d : PmDocRoot) (position : Nat) :
    Except String (TextLoc × Nat × Nat) :=
  match d.children with
  | some cs => findTextOuter cs 0 position 0
  | none => Except.error "Document root missing children list"

/-! ### Step application (`apply_steps_to_loro_doc`) -/

/-- The attribute set a replace step's marked insertion carries: the
union over the item's `marks[]` of `mark type ↦ attrs-or-null`
(`all_attributes` in the source). -/
def marksToAttributes (marks : List Json) : AttrMap :=
  marks.foldl
    (fun acc m =>
      match m.asObj with
      | some mo =>
          match (lookupAssoc mo "type").bind Json.asStr with
          | some markType =>
              insertAssoc acc markType ((lookupAssoc mo "attrs").getD Json.null)
          | none => acc
      | none => acc)
    []

/-- The deletion half of a `replace` step: resolve `from`, clip the
range to the found container, delete when non-empty.  A resolution
failure is logged and skipped in the source. -/
def replaceDelete (d : PmDocRoot) (frm toPos : Nat) : PmDocRoot :=
  match find_text_at_position d frm with
  | Except.ok (loc, start, relFrom) =>
      let t := (getTextAt d loc).getD []
      let relTo := min toPos (start + t.length) - start
      if relFrom < relTo then setTextAt d loc (textDelete t relFrom (relTo - relFrom)) else d
  | Except.error _ => d

/-- Insert one `slice.content` item at the (fixed) resolved relative
position: only `{type:"text"}` items with non-empty text are inserted;
an item carrying a non-empty `marks[]` array goes through a
retain/insert delta carrying `marksToAttributes`, otherwise it is a
plain insert. -/
def insertContentItem (d : PmDocRoot) (loc : TextLoc) (relPos : Nat) (item : Json) :
    PmDocRoot :=
  match item.asObj with
  | none => d
  | some itemObj =>
      match (lookupAssoc itemObj "type").bind Json.asStr with
      | none => d
      | some itemType =>
          if itemType = "text" then
            match (lookupAssoc itemObj "text").bind Json.asStr with
            | none => d
            | some content =>
                if content = "" then d
                else
                  let t := (getTextAt d loc).getD []
                  match (lookupAssoc itemObj "marks").bind Json.asArr with
                  | some marks =>
                      if marks.isEmpty then setTextAt d loc (textInsert t relPos content.data)
                      else
                        let delta :=
                          (if relPos > 0 then [TextDeltaItem.retain relPos []] else [])
                            ++ [TextDeltaItem.insert content.data (marksToAttributes marks)]
                        setTextAt d loc (applyDeltaItems delta t)
                  | none => setTextAt d loc (textInsert t relPos content.data)
          else d

/-- The insertion half of a `replace` step: resolve `from` once
(post-deletion) and insert every content item at that relative
position. -/
def replaceInsert (d : PmDocRoot) (frm : Nat) (contentArr : List Json) : PmDocRoot :=
  match find_text_at_position d frm with
  | Except.ok (loc, _, relPos) =>
      contentArr.foldl (fun acc item => insertContentItem acc loc relPos item) d
  | Except.error _ => d

/-- The attribute set an `addMark` step applies: the mark's `attrs`
object copied key by key when present (empty when present but not an
object), or `value ↦ true` when the mark has no `attrs`.  The mark's
`type` name is not used. -/
def addMarkAttributes (markAttrs : Option Json) : AttrMap :=
  match markAttrs with
  | some attrs =>
      match attrs.asObj with
      | some fs => fs.foldl (fun acc kv => insertAssoc acc kv.1 kv.2) []
      | none => []
  | none => [("value", Json.bool true)]

/-- Shared shape of the `addMark`/`removeMark` arms: resolve `from`,
clip `to`, and when the range is non-empty apply a delta retaining
`relFrom` plainly (only when positive) and the range with the given
attributes. -/
def applyMarkRange (d : PmDocRoot) (frm toPos : Nat) (attributes : AttrMap) : PmDocRoot :=
  match find_text_at_position d frm with
  | Except.ok (loc, start, relFrom) =>
      let t := (getTextAt d loc).getD []
      let relTo := min toPos (start + t.length) - start
      if relFrom < relTo then
        let delta :=
          (if relFrom > 0 then [TextDeltaItem.retain relFrom []] else [])
            ++ [TextDeltaItem.retain (relTo - relFrom) attributes]
        setTextAt d loc (applyDeltaItems delta t)
      else d
  | Except.error _ => d

/-- Apply one step (one iteration of the loop in
`apply_steps_to_loro_doc`).  Steps without a `stepType` and
unrecognized step types are skipped without error.  The `removeMark`
arm applies a retain whose attribute map is empty
(`TextMeta(FxHashMap::default())` in the source), not one carrying a
null value for the mark's type. -/
def applyStep (d : PmDocRoot) (step : Json) : PmDocRoot :=
  match (step.get "stepType").bind Json.asStr with
  | none => d
  | some stepType =>
      if stepType = "replace" then
        let frm := ((step.get "from").bind Json.asU64).getD 0
        let toPos := ((step.get "to").bind Json.asU64).getD 0
        let d1 := if frm ≠ toPos then replaceDelete d frm toPos else d
        match step.get "slice" with
        | none => d1
        | some slice =>
            match (slice.get "content").bind Json.asArr with
            | none => d1
            | some contentArr =>
                if contentArr.isEmpty then d1 else replaceInsert d1 frm contentArr
      else if stepType = "addMark" then
        let frm := ((step.get "from").bind Json.asU64).getD 0
        let toPos := ((step.get "to").bind Json.asU64).getD 0
        match step.get "mark" with
        | none => d
        | some mark => applyMarkRange d frm toPos (addMarkAttributes (mark.get "attrs"))
      else if stepType = "removeMark" then
        let frm := ((step.get "from").bind Json.asU64).getD 0
        let toPos := ((step.get "to").bind Json.asU64).getD 0
        match step.get "mark" with
        | none => d
        | some _ => applyMarkRange d frm toPos []
      else d

/-- Model of `apply_steps_to_loro_doc`: fold the steps in order.  The
Rust function always returns `Ok(())`; the commit is a CRDT-engine
detail with no effect on the modelled state. -/
def apply_steps_to_loro_doc (d : PmDocRoot) (steps : List Json) : PmDocRoot :=
  steps.foldl applyStep d

/-! ### Reverse conversion (`doc_to_json`) -/

/-- Model of `text_to_pm_node`: a non-empty text container expands
into one `{type:"text", text, marks}` JSON node per insert run of its
delta, the run's attribute set becoming a `marks` array of
`{type, attrs}`; an empty container emits a single empty text node
with null marks. -/
def text_to_pm_node (t : RichText) : List Json :=
  if t.length > 0 then
    (textRuns t).foldr
      (fun run acc =>
        if run.1.isEmpty then acc
        else
          let marks :=
            if run.2.isEmpty then Json.null
            else Json.arr (run.2.map (fun kv => Json.obj [("type", Json.str kv.1), ("attrs", kv.2)]))
          Json.obj [("type", Json.str "text"), ("text", Json.str (String.mk run.1)), ("marks", marks)] :: acc)
      []
  else
    [Json.obj [("type", Json.str "text"), ("text", Json.str ""), ("marks", Json.null)]]

/-- Attribute-map conversion shared by the root and node converters:
string/bool/number values are copied, anything else silently dropped;
an absent map or an empty result becomes JSON null. -/
def convertAttrsToJson (attrs : Option (List (String × Json))) : Json :=
  match attrs with
  | none => Json.null
  | some fs =>
      let kept := fs.filter (fun kv =>
        match kv.2 with
        | Json.str _ => true
        | Json.bool _ => true
        | Json.num _ => true
        | _ => false)
      if kept.isEmpty then Json.null else Json.obj kept

/-- Model of `convert_loro_map_to_pm_node` (only ever called on
structural nodes).  A conversion error in a child is logged and the
child skipped; a node without a children list is returned without a
`content` key; an empty converted children list becomes a null
`content`. -/
def convert_loro_map_to_pm_node : Child → Except String Json
  | .node nodeName attrs children =>
      match nodeName with
      | none => Except.error "Node missing 'nodeName' attribute"
      | some nodeType =>
          let attrsJson := convertAttrsToJson attrs
          match children with
          | none => Except.ok (Json.obj [("type", Json.str nodeType), ("attrs", attrsJson)])
          | some cs =>
              let content := goChildren cs
              let contentJson := if content.isEmpty then Json.null else Json.arr content
              Except.ok (Json.obj
                [("type", Json.str nodeType), ("attrs", attrsJson), ("content", contentJson)])
  | _ => Except.error "Node missing 'nodeName' attribute"
where
  goChildren : List Child → List Json
    | [] => []
    | c :: rest =>
        match c with
        | .node _ _ _ =>
            match convert_loro_map_to_pm_node c with
            | Except.ok j => j :: goChildren rest
            | Except.error _ => goChildren rest
        | .text t => text_to_pm_node t ++ goChildren rest
        | .other => goChildren rest

/-- Root-level children conversion: structural-node conversion errors
propagate here (unlike inside `convert_loro_map_to_pm_node`), text
containers expand in place, other container kinds are skipped. -/
def convertRootChildren : List Child → Except String (List Json)
  | [] => Except.ok []
  | c :: rest =>
      match c with
      | .node _ _ _ =>
          match convert_loro_map_to_pm_node c with
          | Except.ok j =>
              match convertRootChildren rest with
              | Except.ok rest' => Except.ok (j :: rest')
              | Except.error e => Except.error e
          | Except.error e => Except.error e
      | .text t =>
          match convertRootChildren rest with
          | Except.ok rest' => Except.ok (text_to_pm_node t ++ rest')
          | Except.error e => Except.error e
      | .other => convertRootChildren rest

/-- Model of `loro_doc_to_pm_doc` (`doc_to_json`): read the root's
`nodeName`, attributes and children and assemble the external
ProseMirror JSON document. -/
def loro_doc_to_pm_doc (d : PmDocRoot) : Except String Json :=
  match d.nodeName with
  | none => Except.error "Document root missing 'nodeName' attribute"
  | some nodeType =>
      let attrsJson := convertAttrsToJson d.attrs
      match d.children with
      | none => Except.error "Document root missing 'children' list"
      | some cs =>
          match convertRootChildren cs with
          | Except.ok content =>
              Except.ok (Json.obj
                [("type", Json.str nodeType), ("attrs", attrsJson), ("content", Json.arr content)])
          | Except.error e => Except.error e

/-- The concatenated content of the `{type:"text"}` nodes of an
external JSON document, in document order (the quantity the
round-trip property talks about). -/
def Json.textContent : Json → String
  | .obj fs =>
      (match lookupAssoc fs "type", lookupAssoc fs "text" with
       | some (Json.str "text"), some (Json.str s) => s
       | _, _ => goFields fs)
  | .arr xs => goList xs
  | _ => ""
where
  goFields : List (String × Json) → String
    | [] => ""
    | (_, v) :: rest => Json.textContent v ++ goFields rest
  goList : List Json → String
    | [] => ""
    | x :: rest => Json.textContent x ++ goList rest

/-! ### Decimal rendering and parsing of `i64`

Models of Rust's `i64::to_string` and `str::parse::<i64>` (the pair
used by `File::set_version` / `File::version`); 64-bit range limits
are not exercised by any claim. -/

/-- Decimal digits of a natural number, most significant first. -/
def natToChars (n : Nat) : List Char :=
  if n = 0 then ['0'] else (Nat.digits 10 n).reverse.map Nat.digitChar

/-- A decimal digit character back to its value. -/
def charToDigit (c : Char) : Option Nat :=
  if 48 ≤ c.toNat ∧ c.toNat ≤ 57 then some (c.toNat - 48) else none

/-- All characters as digit values, or `none` on the first non-digit. -/
def charsToDigits : List Char → Option (List Nat)
  | [] => some []
  | c :: rest =>
      match charToDigit c, charsToDigits rest with
      | some d, some ds => some (d :: ds)
      | _, _ => none

/-- Parse an unsigned decimal numeral (at least one digit, digits
only — the grammar `str::parse::<u64>` accepts after the sign). -/
def parseNatFromChars (cs : List Char) : Option Nat :=
  if cs.isEmpty then none
  else
    match charsToDigits cs with
    | some ds => some (Nat.ofDigits 10 ds.reverse)
    | none => none

/-- Model of `i64::to_string`. -/
def intToChars (i : Int) : List Char :=
  if i < 0 then '-' :: natToChars i.natAbs else natToChars i.natAbs

/-- Model of `str::parse::<i64>`: an optional sign then digits. -/
def parseI64Chars (cs : List Char) : Option Int :=
  match cs with
  | [] => none
  | c :: rest =>
      if c = '-' then (parseNatFromChars rest).map (fun n => -(n : Int))
      else if c = '+' then (parseNatFromChars rest).map (fun n => (n : Int))
      else (parseNatFromChars cs).map (fun n => (n : Int))

theorem charToDigit_digitChar (d : Nat) (h : d < 10) :
    charToDigit (Nat.digitChar d) = some d := by
  interval_cases d <;> decide

theorem charsToDigits_map_digitChar (l : List Nat) (h : ∀ d ∈ l, d < 10) :
    charsToDigits (l.map Nat.digitChar) = some l := by
  induction l with
  | nil => rfl
  | cons d rest ih =>
      have hd : d < 10 := h d (List.mem_cons_self d rest)
      have hrest : ∀ x ∈ rest, x < 10 := fun x hx => h x (List.mem_cons_of_mem d hx)
      simp [charsToDigits, charToDigit_digitChar d hd, ih hrest]

theorem parseNat_natToChars (n : Nat) : parseNatFromChars (natToChars n) = some n := by
  unfold natToChars
  by_cases h : n = 0
  · subst h; decide
  · simp only [h, if_false]
    have hdig : ∀ d ∈ (Nat.digits 10 n).reverse, d < 10 := by
      intro d hd
      exact Nat.digits_lt_base (by norm_num) (List.mem_reverse.mp hd)
    have hne : Nat.digits 10 n ≠ [] := Nat.digits_ne_nil_iff_ne_zero.mpr h
    have hne' : (Nat.digits 10 n).reverse.map Nat.digitChar ≠ [] := by
      simp [hne]
    rw [parseNatFromChars, if_neg (by simpa [List.isEmpty_iff] using hne'),
      charsToDigits_map_digitChar _ hdig]
    simp [Nat.ofDigits_digits]

theorem digitChar_not_sign (d : Nat) (h : d < 10) :
    Nat.digitChar d ≠ '-' ∧ Nat.digitChar d ≠ '+' := by
  interval_cases d <;> decide

theorem natToChars_shape (n : Nat) :
    ∃ d rest, natToChars n = Nat.digitChar d :: rest ∧ d < 10 := by
  unfold natToChars
  by_cases h : n = 0
  · exact ⟨0, [], by simp [h]; decide, by norm_num⟩
  · simp only [h, if_false]
    have hne : Nat.digits 10 n ≠ [] := Nat.digits_ne_nil_iff_ne_zero.mpr h
    have hne2 : (Nat.digits 10 n).reverse ≠ [] := by simpa using hne
    obtain ⟨d, ds, hds⟩ := List.exists_cons_of_ne_nil hne2
    refine ⟨d, ds.map Nat.digitChar, by rw [hds]; rfl, ?_⟩
    have : d ∈ (Nat.digits 10 n).reverse := by rw [hds]; exact List.mem_cons_self d ds
    exact Nat.digits_lt_base (by norm_num) (List.mem_reverse.mp this)

theorem parseI64_natToChars (n : Nat) : parseI64Chars (natToChars n) = some (n : Int) := by
  obtain ⟨d, rest, hc, hd⟩ := natToChars_shape n
  obtain ⟨h1, h2⟩ := digitChar_not_sign d hd
  rw [hc, parseI64Chars, if_neg h1, if_neg h2, ← hc, parseNat_natToChars]
  rfl

theorem parseI64_intToChars (i : Int) : parseI64Chars (intToChars i) = some i := by
  unfold intToChars
  by_cases h : i < 0
  · rw [if_pos h, parseI64Chars, if_pos rfl, parseNat_natToChars]
    show some (-(i.natAbs : Int)) = some i
    congr 1
    omega
  · rw [if_neg h, parseI64_natToChars]
    congr 1
    omega

/-! ### Files and their metadata store (`file/lib.rs`)

A file's metadata lives either in the `"meta"` map of a full `LoroDoc`
(`FileStore::Full`) or in a standalone cached `LoroMap`
(`FileStore::Cache`).  Metadata values are the `ValueOrContainer`
shapes the accessors distinguish. -/

/-- A metadata map entry value. -/
inductive MetaVal where
  | vStr (s : String)
  | vI64 (n : Int)
  | vBool (b : Bool)
  | cText (t : String)
  | otherVal
deriving DecidableEq

/-- A metadata map (model of a `LoroMap` holding metadata). -/
abbrev MetaMap := List (String × MetaVal)

/-- A full document store: the `"meta"` map plus the `"doc"` rich-text
subtree. -/
structure FullStore where
  meta : MetaMap
  docRoot : PmDocRoot

/-- Model of `FileStore`. -/
inductive FStore where
  | cache (m : MetaMap)
  | full (s : FullStore)

/-- Model of `FileStore::meta` / `File::meta`. -/
def FStore.metaMap : FStore → MetaMap
  | .cache m => m
  | .full s => s.meta

/-- Model of `File::id`. -/
def fileId (st : FStore) : Except String String :=
  match lookupAssoc st.metaMap "id" with
  | some (.vStr id) => Except.ok id
  | _ => Except.error "ID not found"

/-- Model of `File::version`: an `I64` value is returned directly, a
string value is parsed as `i64` (failing with a parse error), anything
else is a missing version. -/
def fileVersion (st : FStore) : Except String Int :=
  match lookupAssoc st.metaMap "version" with
  | some (.vI64 v) => Except.ok v
  | some (.vStr s) =>
      match parseI64Chars s.data with
      | some v => Except.ok v
      | none => Except.error "Failed to parse version"
  | _ => Except.error "Version not found"

/-- Insert into the store's metadata map. -/
def FStore.insertMeta (st : FStore) (key : String) (v : MetaVal) : FStore :=
  match st with
  | .cache m => .cache (insertAssoc m key v)
  | .full s => .full { s with meta := insertAssoc s.meta key v }

/-- Model of `File::save_to_indexeddb`: requires an id and a full
store; the IndexedDB collaborator itself is modelled as succeeding. -/
def saveToIndexeddb (st : FStore) : Except String Unit :=
  match fileId st, st with
  | Except.ok _, .full _ => Except.ok ()
  | _, _ => Except.error "Cannot save: missing ID or full document"

/-- Model of `File::set_field`: insert the string value into the
metadata map, then persist (so the map mutation happens even when the
persist step fails — handle semantics). -/
def setField (st : FStore) (field value : String) : Except String FStore :=
  let st' := st.insertMeta field (.vStr value)
  match saveToIndexeddb st' with
  | Except.ok _ => Except.ok st'
  | Except.error e => Except.error e

/-- Model of `File::set_version` (stores the decimal string, like
`version.to_string()`). -/
def setVersion (st : FStore) (version : Int) : Except String FStore :=
  setField st "version" (String.mk (intToChars version))

/-- Rust's `format!("{:?}", e)` on an error string (debug-quoted; no
claim exercises inner escapes). -/
def debugQuote (e : String) : String :=
  "\"" ++ e ++ "\""

/-- Model of `HasRichText::apply_steps`: a cache store is rejected;
otherwise the steps are applied to the `"doc"` subtree (always
succeeding), the version read back (`unwrap_or(0)`), incremented once
for the whole batch and persisted via `set_version`.  The
version-mismatch check against the caller's `version` argument only
logs and has no effect. -/
def apply_steps (st : FStore) (steps : List Json) (version : Int) :
    Except String (Int × FStore) :=
  match st with
  | .cache _ => Except.error "Cannot get content from cache"
  | .full s =>
      let _ := version
      let s' := FStore.full { s with docRoot := apply_steps_to_loro_doc s.docRoot steps }
      let newVersion := (match fileVersion s' with
        | Except.ok v => v
        | Except.error _ => 0) + 1
      match setVersion s' newVersion with
      | Except.ok s'' => Except.ok (newVersion, s'')
      | Except.error e => Except.error ("Failed to set version: " ++ debugQuote e)

/-- Model of `FileBuilder` (the `tree_id` and phantom fields play no
role in the claims). -/
structure FileBuilderM where
  id : Option String
  store : Option FStore
  collectionType : String

/-- Model of `FileBuilder::new`. -/
def FileBuilderM.new (collectionType : String) : FileBuilderM :=
  { id := none, store := none, collectionType := collectionType }

/-- Model of `FileBuilder::with_meta`: installs the supplied metadata
map wholesale as a cache store when no store exists yet; fails only
when a store already exists.  No field is copied or validated. -/
def with_meta (b : FileBuilderM) (meta : MetaMap) : Except String FileBuilderM :=
  match b.store with
  | none => Except.ok { b with store := some (.cache meta) }
  | some _ => Except.error "Store already exists"

/-- Outcome of an operation that may terminate the process (model for
code containing `.unwrap()`). -/
inductive PanicOr (α : Type) where
  | ok (a : α)
  | err (e : String)
  | panicked
deriving DecidableEq

/-- Model of `File::load_string_field_with_meta`: the external meta's
string or i64 value takes precedence; then the file's own metadata is
consulted for a string, text container or i64 value. -/
def load_string_field_with_meta (metaExt : Option MetaMap) (ownMeta : MetaMap)
    (field : String) : Except String String :=
  let extHit : Option String :=
    match metaExt with
    | some m =>
        match lookupAssoc m field with
        | some (.vStr v) => some v
        | some (.vI64 v) => some (String.mk (intToChars v))
        | _ => none
    | none => none
  match extHit with
  | some v => Except.ok v
  | none =>
      match lookupAssoc ownMeta field with
      | some (.vStr v) => Except.ok v
      | some (.cText t) => Except.ok t
      | some (.vI64 v) => Except.ok (String.mk (intToChars v))
      | _ => Except.error ("Field " ++ field ++ " not found in doc or meta")

/-- Model of `File::get_i64_field_with_meta`: loads the field as a
string and then calls `value.parse::<i64>().unwrap()` — an
unparseable value terminates the process. -/
def get_i64_field_with_meta (metaExt : Option MetaMap) (ownMeta : MetaMap)
    (field : String) : PanicOr Int :=
  match load_string_field_with_meta metaExt ownMeta field with
  | Except.ok v =>
      match parseI64Chars v.data with
      | some n => PanicOr.ok n
      | none => PanicOr.panicked
  | Except.error e => PanicOr.err e

/-! ### Collections and their field schemas (`collection.rs`, `types.rs`)

A collection's `LoroMap` holds a `"fields"` map and a `"files"` tree.
A field's map holds `name`/`field_type`/`required` entries; the
`Into<Value>`/`TryFrom<LoroMap>` pair in `types.rs` round-trips a
`FieldDefinition` losslessly, so the fields map is modelled as an
association list of `FieldDefinition` values directly.  The files
tree plays no role in the field-overwrite claim and is not modelled. -/

/-- Model of `FieldType` (`types.rs`). -/
inductive FieldTypeM where
  | richText
  | text
  | list
  | map
  | dateTime
  | string
  | number
  | object
  | array
  | blob
deriving DecidableEq

/-- Model of `FieldDefinition`. -/
structure FieldDefinitionM where
  name : String
  fieldType : FieldTypeM
  required : Bool
deriving DecidableEq

/-- A collection's `LoroMap`: its `"fields"` map (present iff the key
holds a map container). -/
structure CollMap where
  fieldsMap : Option (List (String × FieldDefinitionM))

/-- Model of `CollectionBuilder`: the pending map and the declared
fields vector (`add_field` pushes; nothing is deduplicated here). -/
structure CollectionBuilderM where
  name : String
  map : CollMap
  fields : List FieldDefinitionM

/-- Model of `CollectionBuilder::new`: a fresh map with an empty
fields map (and files tree). -/
def CollectionBuilderM.new (name : String) : CollectionBuilderM :=
  { name := name, map := { fieldsMap := some [] }, fields := [] }

/-- Model of `CollectionBuilder::add_field`. -/
def add_field (b : CollectionBuilderM) (name : String) (fieldType : FieldTypeM)
    (required : Bool) : CollectionBuilderM :=
  { b with fields := b.fields ++ [{ name := name, fieldType := fieldType, required := required }] }

/-- Model of the built (attached or detached) `Collection`: a name and
the collection map it wraps. -/
structure CollectionM where
  name : String
  map : CollMap

/-- The project document's `"collections"` map. -/
structure ProjectDoc where
  collections : List (String × CollMap)

/-- Model of `CollectionBuilder::build` (attached): insert the
builder's map unless a collection of that name already exists; make
sure a fields map exists; then insert each declared field only when no
field of that name is already present (existing fields are left
untouched).  Returns the collection together with the updated project
document. -/
def CollectionBuilderM.build (b : CollectionBuilderM) (doc : ProjectDoc) :
    Except String (CollectionM × ProjectDoc) :=
  let collections :=
    match lookupAssoc doc.collections b.name with
    | none => insertAssoc doc.collections b.name b.map
    | some _ => doc.collections
  match lookupAssoc collections b.name with
  | none => Except.error "Collection not found"
  | some coll =>
      let fieldsMap := (coll.fieldsMap).getD []
      let fieldsMap :=
        b.fields.foldl
          (fun fm f =>
            match lookupAssoc fm f.name with
            | some _ => fm
            | none => insertAssoc fm f.name f)
          fieldsMap
      let coll' : CollMap := { fieldsMap := some fieldsMap }
      Except.ok
        ({ name := b.name, map := coll' },
         { collections := insertAssoc collections b.name coll' })

/-- Model of `CollectionBuilder::build_detached`: requires the
builder's own fields map and inserts every declared field into it
unconditionally (a later declaration of the same name overwrites an
earlier one). -/
def build_detached (b : CollectionBuilderM) : Except String CollectionM :=
  match b.map.fieldsMap with
  | none => Except.error "Fields not initialized"
  | some fieldsMap =>
      let fieldsMap :=
        b.fields.foldl (fun fm f => insertAssoc fm f.name f) fieldsMap
      Except.ok { name := b.name, map := { fieldsMap := some fieldsMap } }

/-- Model of `Collection::get_field`. -/
def CollectionM.get_field (c : CollectionM) (name : String) :
    Except String FieldDefinitionM :=
  match c.map.fieldsMap with
  | none => Except.error "Fields not initialized"
  | some fm =>
      match lookupAssoc fm name with
      | some f => Except.ok f
      | none => Except.error ("Field not found: " ++ name)

/-- Model of `Collection::get_fields` (every fields-map entry as a
field definition). -/
def CollectionM.get_fields (c : CollectionM) :
    Except String (List FieldDefinitionM) :=
  match c.map.fieldsMap with
  | none => Except.error "Fields not initialized"
  | some fm => Except.ok (fm.map Prod.snd)

/-! ### Association-list lemmas -/

theorem lookupAssoc_insertAssoc_self {α : Type} (l : List (String × α)) (k : String) (v : α) :
    lookupAssoc (insertAssoc l k v) k = some v := by
  induction l with
  | nil => simp [insertAssoc, lookupAssoc]
  | cons kv rest ih =>
      obtain ⟨k', v'⟩ := kv
      by_cases h : k' = k
      · simp [insertAssoc, h, lookupAssoc]
      · simp [insertAssoc, h, lookupAssoc, ih]

theorem lookupAssoc_insertAssoc_ne {α : Type} (l : List (String × α)) (k k' : String) (v : α)
    (h : k ≠ k') : lookupAssoc (insertAssoc l k v) k' = lookupAssoc l k' := by
  induction l with
  | nil => simp [insertAssoc, lookupAssoc, h]
  | cons kv rest ih =>
      obtain ⟨k'', v''⟩ := kv
      by_cases h2 : k'' = k
      · subst h2; simp [insertAssoc, lookupAssoc, h]
      · simp [insertAssoc, h2, lookupAssoc, ih]

/-! ### Concrete fixtures used by the claims -/

/-- The replace step inserting `"Hello"` at position 0. -/
def replaceHelloStep : Json :=
  Json.obj [("stepType", Json.str "replace"), ("from", Json.num 0), ("to", Json.num 0),
    ("slice", Json.obj [("content",
      Json.arr [Json.obj [("type", Json.str "text"), ("text", Json.str "Hello")]])])]

/-- `addMark{type:"bold"}` (no attrs) over `[0,5)`. -/
def addMarkBoldStep : Json :=
  Json.obj [("stepType", Json.str "addMark"), ("from", Json.num 0), ("to", Json.num 5),
    ("mark", Json.obj [("type", Json.str "bold")])]

/-- `removeMark{type:"bold"}` over `[0,5)`. -/
def removeMarkBoldStep : Json :=
  Json.obj [("stepType", Json.str "removeMark"), ("from", Json.num 0), ("to", Json.num 5),
    ("mark", Json.obj [("type", Json.str "bold")])]

/-- The freshly initialized document after inserting `"Hello"`. -/
def helloDoc : PmDocRoot :=
  apply_steps_to_loro_doc initialize_richtext_document [replaceHelloStep]

/-- A document whose single paragraph holds one text container with
the given content. -/
def paraDoc (s : String) : PmDocRoot :=
  { nodeName := some "doc"
    attrs := some []
    children := some [Child.node (some "paragraph") (some []) (some [Child.text (plainRuns s)])] }

/-- A root document with the given children list. -/
def docWithChildren (cs : List Child) : PmDocRoot :=
  { nodeName := some "doc", attrs := some [], children := some cs }

/-- A document whose text container sits two structural levels below
the root (blockquote → paragraph → text `"ab"`). -/
def nestedDoc : PmDocRoot :=
  docWithChildren
    [Child.node (some "blockquote") (some [])
      (some [Child.node (some "paragraph") (some []) (some [Child.text (plainRuns "ab")])])]

/-- An addMark step carrying an explicit attrs object. -/
def addMarkWithAttrsStep : Json :=
  Json.obj [("stepType", Json.str "addMark"), ("from", Json.num 1), ("to", Json.num 3),
    ("mark", Json.obj [("type", Json.str "bold"),
      ("attrs", Json.obj [("strength", Json.num 2)])])]

/-- An addMark step with the given mark type, range and optional
attrs object. -/
def mkAddMarkStep (markType : String) (frm toPos : Nat) (attrs : Option Json) : Json :=
  Json.obj [("stepType", Json.str "addMark"), ("from", Json.num frm), ("to", Json.num toPos),
    ("mark", Json.obj (("type", Json.str markType) ::
      (match attrs with
       | some a => [("attrs", a)]
       | none => [])))]

/-- The `marks` value of the first text node of the first content
child of an external JSON document. -/
def firstTextNodeMarks (j : Json) : Option Json :=
  match (j.get "content").bind Json.asArr with
  | some (p :: _) =>
      (match (p.get "content").bind Json.asArr with
       | some (t :: _) => t.get "marks"
       | _ => none)
  | _ => none

/-- A fully built file store (id and version present), used to
instantiate the step-application theorems. -/
def sampleFullStore : FullStore :=
  { meta := [("id", MetaVal.vStr "f1"), ("version", MetaVal.vI64 0)]
    docRoot := initialize_richtext_document }

/-! ### The behavior of `apply_steps` on a well-formed full store -/

/-- Reading the version back after `set_version` stored its decimal
string. -/
theorem fileVersion_after_set (m : MetaMap) (d : PmDocRoot) (x : Int) :
    fileVersion (FStore.full
      { meta := insertAssoc m "version" (MetaVal.vStr (String.mk (intToChars x)))
        docRoot := d }) = Except.ok x := by
  have hdata : (String.mk (intToChars x)).data = intToChars x := rfl
  simp [fileVersion, FStore.metaMap, lookupAssoc_insertAssoc_self, hdata, parseI64_intToChars]

/-- On a full store whose metadata carries a string id and a readable
version `cur`, `apply_steps` succeeds for every step batch and every
caller version, returning `cur + 1` and storing its decimal string. -/
theorem apply_steps_full_spec (s : FullStore) (steps : List Json) (v cur : Int) (idStr : String)
    (hid : lookupAssoc s.meta "id" = some (MetaVal.vStr idStr))
    (hver : fileVersion (FStore.full s) = Except.ok cur) :
    apply_steps (FStore.full s) steps v
      = Except.ok (cur + 1, FStore.full
          { meta := insertAssoc s.meta "version" (MetaVal.vStr (String.mk (intToChars (cur + 1))))
            docRoot := apply_steps_to_loro_doc s.docRoot steps }) := by
  have hver' : fileVersion (FStore.full
      { meta := s.meta, docRoot := apply_steps_to_loro_doc s.docRoot steps }) = Except.ok cur :=
    hver
  have hid' : fileId (FStore.full
      { meta := insertAssoc s.meta "version" (MetaVal.vStr (String.mk (intToChars (cur + 1))))
        docRoot := apply_steps_to_loro_doc s.docRoot steps }) = Except.ok idStr := by
    simp [fileId, FStore.metaMap,
      lookupAssoc_insertAssoc_ne _ _ _ _ (show "version" ≠ "id" by decide), hid]
  simp only [apply_steps]
  rw [hver']
  simp only [setVersion, setField, FStore.insertMeta, saveToIndexeddb, hid']

/-! ### The claims -/

/-- C1: for a freshly initialized empty rich-text document, applying
one replace step that inserts `"Hello"` at position 0 (from=0, to=0,
one `{type:"text"}` slice item) and converting with `doc_to_json`
yields a document whose concatenated text-node content is `"Hello"`. -/
theorem c1_round_trip_hello :
    (loro_doc_to_pm_doc
        (apply_steps_to_loro_doc initialize_richtext_document [replaceHelloStep])).map
      Json.textContent = Except.ok "Hello" := by
  rfl

/-- C2: on a file with a full document store (with its id and a
readable version `cur` present, as every built file has), one
`apply_steps` call with a non-empty batch returns `cur + 1` and leaves
the stored version readable as `cur + 1`, however many steps the batch
contains — the increment is per batch, not per step. -/
theorem c2_batch_increments_version_once (s : FullStore) (steps : List Json) (v cur : Int)
    (idStr : String) (_hsteps : steps ≠ [])
    (hid : lookupAssoc s.meta "id" = some (MetaVal.vStr idStr))
    (hver : fileVersion (FStore.full s) = Except.ok cur) :
    ∃ s', apply_steps (FStore.full s) steps v = Except.ok (cur + 1, FStore.full s')
      ∧ fileVersion (FStore.full s') = Except.ok (cur + 1) := by
  refine ⟨_, apply_steps_full_spec s steps v cur idStr hid hver, ?_⟩
  exact fileVersion_after_set s.meta (apply_steps_to_loro_doc s.docRoot steps) (cur + 1)

/-- Witness for C2: a two-step batch applied to a built file at
version 0 yields exactly version 1. -/
theorem c2_batch_increments_version_once_witness :
    ∃ s', apply_steps (FStore.full sampleFullStore) [replaceHelloStep, addMarkBoldStep] 0
        = Except.ok (0 + 1, FStore.full s')
      ∧ fileVersion (FStore.full s') = Except.ok (0 + 1) :=
  c2_batch_increments_version_once sampleFullStore [replaceHelloStep, addMarkBoldStep] 0 0 "f1"
    (by simp) rfl rfl

/-- C3: in a document with one paragraph holding the text `"ab"`,
position 0 resolves to that text container at relative offset 0,
position 2 (end-inclusive) resolves to relative offset 2, and
position 3 fails with the position-not-found error. -/
theorem c3_position_resolution_boundary :
    find_text_at_position (paraDoc "ab") 0 = Except.ok (TextLoc.nested 0 0, 0, 0)
    ∧ find_text_at_position (paraDoc "ab") 2 = Except.ok (TextLoc.nested 0 0, 0, 2)
    ∧ getTextAt (paraDoc "ab") (TextLoc.nested 0 0) = some (plainRuns "ab")
    ∧ find_text_at_position (paraDoc "ab") 3
        = Except.error "No text node found at position 3" := by
  refine ⟨rfl, rfl, rfl, ?_⟩
  rfl

/-- C4 (against the spec's intended behavior): starting from the
`"Hello"` document, `addMark{type:"bold"}` over `[0,5)` followed by
`removeMark{type:"bold"}` over the same range does NOT leave the run's
marks empty/null — the `removeMark` arm applies a retain with an empty
attribute map (not a null-valued one), which removes nothing, so
`doc_to_json` still reports the mark written by `addMark` (whose
attribute key is `value`, see C5). -/
theorem c4_remove_mark_is_noop :
    (loro_doc_to_pm_doc
        (apply_steps_to_loro_doc helloDoc [addMarkBoldStep, removeMarkBoldStep])).toOption.bind
      firstTextNodeMarks
      = some (Json.arr [Json.obj [("type", Json.str "value"), ("attrs", Json.bool true)]]) := by
  rfl

/-- C5 counterexample: `addMark{type:"bold", attrs:{strength:2}}` over
`[1,3)` on `"Hello"` stores the attribute key `strength` — the mark's
attrs entries verbatim — on the marked characters; no `bold` key (the
mark's type name) appears, refuting the claimed delta shape
`retain(length, attrs={type: attrs})`. -/
theorem c5_counterexample_attr_keys :
    getTextAt (apply_steps_to_loro_doc helloDoc [addMarkWithAttrsStep]) (TextLoc.nested 0 0)
      = some [('H', []), ('e', [("strength", Json.num 2)]), ('l', [("strength", Json.num 2)]),
              ('l', []), ('o', [])] := by
  rfl

/-- C5 (amended): the delta an `addMark` step applies is
`[retain(relative_from) when positive, retain(length, A)]` where `A`
is the mark's `attrs` object copied entry by entry when present, or
`{value:true}` when absent — the mark's type name never enters the
delta, so two addMark steps differing only in mark type have the same
effect on every document. -/
theorem c5_amended_mark_type_unused (d : PmDocRoot) (t1 t2 : String) (frm toPos : Nat)
    (attrs : Option Json) :
    applyStep d (mkAddMarkStep t1 frm toPos attrs)
      = applyStep d (mkAddMarkStep t2 frm toPos attrs) := by
  cases attrs <;> rfl

/-- C6 counterexample: in a document whose text `"ab"` sits two
structural levels deep (blockquote → paragraph → text), position 2 —
which falls inside that text container under the claimed
recursive accounting (two node boundaries then the text) — is not
resolved but fails, because resolution never recurses past the first
structural level. -/
theorem c6_counterexample_nested_text_unreachable :
    find_text_at_position nestedDoc 2 = Except.error "No text node found at position 2" := by
  rfl

theorem findTextInner_unit (nm : Option String) (attrs : Option (List (String × Json)))
    (cs : Option (List Child)) :
    ∀ (l1 l2 : List Child) (j pos cur : Nat),
      findTextInner (l1 ++ Child.node nm attrs cs :: l2) j pos cur
        = findTextInner (l1 ++ Child.other :: l2) j pos cur := by
  intro l1
  induction l1 with
  | nil => intro l2 j pos cur; rfl
  | cons c rest ih =>
      intro l2 j pos cur
      cases c with
      | text t =>
          simp only [List.cons_append, findTextInner]
          split
          · rfl
          · exact ih l2 (j + 1) pos (cur + t.length)
      | node a b cc =>
          simp only [List.cons_append, findTextInner]
          exact ih l2 (j + 1) pos (cur + 1)
      | other =>
          simp only [List.cons_append, findTextInner]
          exact ih l2 (j + 1) pos (cur + 1)

theorem findTextOuter_unit (onm : Option String) (oattrs : Option (List (String × Json)))
    (ipre ipost : List Child) (nm : Option String) (attrs : Option (List (String × Json)))
    (cs : Option (List Child)) (post : List Child) :
    ∀ (pre : List Child) (i pos cur : Nat),
      findTextOuter
          (pre ++ Child.node onm oattrs (some (ipre ++ Child.node nm attrs cs :: ipost)) :: post)
          i pos cur
        = findTextOuter (pre ++ Child.node onm oattrs (some (ipre ++ Child.other :: ipost)) :: post)
            i pos cur := by
  intro pre
  induction pre with
  | nil =>
      intro i pos cur
      simp only [List.nil_append, findTextOuter]
      rw [findTextInner_unit]
  | cons c rest ih =>
      intro i pos cur
      cases c with
      | node a b cc =>
          cases cc with
          | none =>
              simp only [List.cons_append, findTextOuter]
              exact ih (i + 1) pos cur
          | some ncs =>
              simp only [List.cons_append, findTextOuter]
              cases hfi : findTextInner ncs 0 pos cur with
              | inl r => simp only [hfi]
              | inr cur' => simp only [hfi]; exact ih (i + 1) pos (cur' + 1)
      | text t =>
          simp only [List.cons_append, findTextOuter]
          split
          · rfl
          · exact ih (i + 1) pos (cur + t.length)
      | other =>
          simp only [List.cons_append, findTextOuter]
          exact ih (i + 1) pos (cur + 1)

/-- C6 (amended): position resolution walks only the root's children
and, for a structural root child, its immediate children; a structural
node nested at the second level is treated as one opaque position
unit, whatever its subtree holds — replacing it (and any text inside
it) by an arbitrary other container changes no resolution result, so
positions inside such doubly-nested text containers are never
resolved. -/
theorem c6_amended_no_recursion (onm : Option String)
    (oattrs : Option (List (String × Json))) (ipre ipost : List Child) (nm : Option String)
    (attrs : Option (List (String × Json))) (cs : Option (List Child))
    (pre post : List Child) (pos : Nat) :
    find_text_at_position
        (docWithChildren
          (pre ++ Child.node onm oattrs (some (ipre ++ Child.node nm attrs cs :: ipost)) :: post))
        pos
      = find_text_at_position
          (docWithChildren
            (pre ++ Child.node onm oattrs (some (ipre ++ Child.other :: ipost)) :: post)) pos := by
  simp only [find_text_at_position, docWithChildren]
  exact findTextOuter_unit onm oattrs ipre ipost nm attrs cs post pre 0 pos 0

/-- C7 counterexample: `with_meta` on a fresh builder succeeds even
when the supplied metadata map has neither an `id` nor a `name` —
no missing-field failure occurs. -/
theorem c7_counterexample_no_validation :
    with_meta (FileBuilderM.new "test") []
      = Except.ok { id := none, store := some (FStore.cache []), collectionType := "test" } := by
  rfl

/-- C7 (amended): `with_meta` adopts the entire supplied metadata map
as the builder's cache store whenever no store has been established,
and fails (only) with a store-already-exists error otherwise; it
performs no per-field copying and no id/name validation. -/
theorem c7_amended_with_meta_installs_map (b : FileBuilderM) (m : MetaMap) :
    (b.store = none → with_meta b m = Except.ok { b with store := some (FStore.cache m) })
    ∧ (∀ st, b.store = some st → with_meta b m = Except.error "Store already exists") := by
  constructor
  · intro h
    simp [with_meta, h]
  · intro st h
    simp [with_meta, h]

/-- Witness for C7: the amended description at a concrete builder and
metadata map. -/
theorem c7_amended_with_meta_installs_map_witness :
    with_meta (FileBuilderM.new "page") [("name", MetaVal.vStr "n")]
      = Except.ok { id := none, store := some (FStore.cache [("name", MetaVal.vStr "n")]),
                    collectionType := "page" } :=
  (c7_amended_with_meta_installs_map (FileBuilderM.new "page") [("name", MetaVal.vStr "n")]).1 rfl

/-- The builder declaring `"x"` as `{Text, required:true}` and then
re-declaring `"x"` as `{Number, required:false}`. -/
def c8Builder : CollectionBuilderM :=
  add_field (add_field (CollectionBuilderM.new "c") "x" FieldTypeM.text true)
    "x" FieldTypeM.number false

/-- C8 counterexample: after the attached `CollectionBuilder::build`
(into an empty project document), the single field `"x"` has type
`Text` and `required = true` — the FIRST declaration, because `build`
skips any field whose name already exists in the collection's fields
map; the claimed last-write-wins outcome (`Number`, `required:false`)
does not hold on this path. -/
theorem c8_counterexample_attached_build_first_wins :
    (c8Builder.build { collections := [] }).map
        (fun r => (r.1.get_fields, r.1.get_field "x"))
      = Except.ok
          (Except.ok [{ name := "x", fieldType := FieldTypeM.text, required := true }],
           Except.ok { name := "x", fieldType := FieldTypeM.text, required := true }) := by
  rfl

/-- C8 (amended): re-declaring field `"x"` leaves exactly one field
named `"x"` on both build paths, but with different winners:
`build_detached` inserts unconditionally, so the last declaration wins
(`Number`, not required); the attached `build` skips names already
present, so the first declaration wins (`Text`, required). -/
theorem c8_amended_overwrite_split :
    (build_detached c8Builder).map (fun c => (c.get_fields, c.get_field "x"))
      = Except.ok
          (Except.ok [{ name := "x", fieldType := FieldTypeM.number, required := false }],
           Except.ok { name := "x", fieldType := FieldTypeM.number, required := false })
    ∧ (c8Builder.build { collections := [] }).map
          (fun r => (r.1.get_fields, r.1.get_field "x"))
        = Except.ok
            (Except.ok [{ name := "x", fieldType := FieldTypeM.text, required := true }],
             Except.ok { name := "x", fieldType := FieldTypeM.text, required := true }) := by
  exact ⟨rfl, rfl⟩

/-- C9 (the code panics where the spec promises a typed failure):
`get_i64_field_with_meta` on a metadata map whose `version` field
holds a non-numeric string reaches `value.parse::<i64>().unwrap()`
and terminates the process instead of returning an error value. -/
theorem c9_get_i64_field_panics :
    get_i64_field_with_meta none [("version", MetaVal.vStr "not-a-number")] "version"
      = PanicOr.panicked := by
  rfl

/-- C10 counterexample: a full-document store whose metadata lacks an
`id` makes `apply_steps` fail (the post-application version persist
needs an id to save), so a cache store is not the only error case. -/
theorem c10_counterexample_missing_id_errors :
    apply_steps
        (FStore.full { meta := [("version", MetaVal.vI64 0)],
                       docRoot := initialize_richtext_document }) [] 0
      = Except.error "Failed to set version: \"Cannot save: missing ID or full document\"" := by
  rfl

/-- C10 (amended): on a full store whose metadata carries an id and a
readable version `cur`, `apply_steps` returns `Ok` for every steps
array (the empty array, unrecognized step types and unresolvable
positions included) and every caller version, always returning and
storing `cur + 1` even when no step modified the document; on a cache
store it always errors.  (A full store lacking an id errors too, see
the counterexample.) -/
theorem c10_amended_apply_steps_totality (s : FullStore) (steps : List Json) (v cur : Int)
    (idStr : String) (hid : lookupAssoc s.meta "id" = some (MetaVal.vStr idStr))
    (hver : fileVersion (FStore.full s) = Except.ok cur) :
    (∃ s', apply_steps (FStore.full s) steps v = Except.ok (cur + 1, FStore.full s')
        ∧ fileVersion (FStore.full s') = Except.ok (cur + 1))
    ∧ (∀ m : MetaMap, apply_steps (FStore.cache m) steps v
        = Except.error "Cannot get content from cache") := by
  constructor
  · exact ⟨_, apply_steps_full_spec s steps v cur idStr hid hver,
      fileVersion_after_set s.meta (apply_steps_to_loro_doc s.docRoot steps) (cur + 1)⟩
  · intro m
    rfl

/-- Witness for C10: the empty batch on a built file at version 0
still returns `Ok` with version 1, and the same batch on a cache
store errors. -/
theorem c10_amended_apply_steps_totality_witness :
    (∃ s', apply_steps (FStore.full sampleFullStore) [] 0 = Except.ok (0 + 1, FStore.full s')
        ∧ fileVersion (FStore.full s') = Except.ok (0 + 1))
    ∧ (∀ m : MetaMap, apply_steps (FStore.cache m) [] 0
        = Except.error "Cannot get content from cache") :=
  c10_amended_apply_steps_totality sampleFullStore [] 0 0 "f1" rfl rfl

end Organ
